import Mathlib

/-!
Verification of the `diy_asgi_framework` repository against its
natural-language specification.

Part 1 embeds the path-segment routing trie of `src/asgi/router.py`.
Part 2 embeds the background task engine (`asgi/background_tasks.py`),
whose implementation file is not in the source tree; those definitions
are modelled from the spec (sections 3, 4, 6, 7 of spec.md) and from the
shape its unit tests in `src/asgi/test_background_tasks.py` exercise.

Handlers and extractors are opaque callables in the Python code; here
they are type parameters `H`, `Q`, `B` so the theorems hold for every
choice of handler/extractor values.
-/

namespace Asgi

/-- The HTTP methods enum of `src/asgi/types.py` (`class Methods(Enum)`). -/
inductive Methods where
  | GET
  | POST
  | PUT
  | PATCH
  | DELETE
deriving DecidableEq, Repr

/-- `_Route` of `src/asgi/router.py`: a handler plus optional query-string and
body extractors (`QueryExtractor` / `BodyExtractor` are `Optional[Callable]`). -/
structure Route (H Q B : Type) where
  handler : H
  query_string_extractor : Option Q
  body_extractor : Option B
deriving DecidableEq, Repr

/-- `_NodeRoute` of `src/asgi/router.py`: a trie node with a `children` dict
from segment strings to nodes and a `routes` dict initialised with every
`Methods` key mapped to `None` (here: a total function `Methods → Option`). -/
inductive NodeRoute (H Q B : Type) where
  | node (children : List (String × NodeRoute H Q B)) (routes : Methods → Option (Route H Q B))

namespace NodeRoute

/-- The fresh node built by `_NodeRoute.__init__`: empty children, all
methods mapped to `None`. -/
def empty (H Q B : Type) : NodeRoute H Q B :=
  .node [] (fun _ => none)

/-- `children` field accessor. -/
def children {H Q B : Type} : NodeRoute H Q B → List (String × NodeRoute H Q B)
  | .node cs _ => cs

/-- `routes` field accessor. -/
def routes {H Q B : Type} : NodeRoute H Q B → Methods → Option (Route H Q B)
  | .node _ rs => rs

end NodeRoute

/-- Dict lookup `current.children[segment]` on the insertion-ordered
children association list. -/
def lookupChild {H Q B : Type} (s : String) :
    List (String × NodeRoute H Q B) → Option (NodeRoute H Q B)
  | [] => none
  | (k, v) :: rest => if k = s then some v else lookupChild s rest

/-- Dict write `current.children[segment] = node`: replace the binding in
place when the key exists, append it otherwise (Python dict semantics). -/
def setChild {H Q B : Type} (s : String) (v : NodeRoute H Q B) :
    List (String × NodeRoute H Q B) → List (String × NodeRoute H Q B)
  | [] => [(s, v)]
  | (k, w) :: rest => if k = s then (k, v) :: rest else (k, w) :: setChild s v rest

/-- The insertion loop of `Router.add_route`, recursing over the segment
list: walk/create child nodes for each segment, then set
`current.routes[method] = _Route(handler, qse, be)` at the final node. -/
def insertPath {H Q B : Type} :
    NodeRoute H Q B → List String → Methods → Route H Q B → NodeRoute H Q B
  | .node cs rs, [], m, r =>
      .node cs (fun m' => if m' = m then some r else rs m')
  | .node cs rs, s :: rest, m, r =>
      let child := match lookupChild s cs with
        | some c => c
        | none => NodeRoute.empty H Q B
      .node (setChild s (insertPath child rest m r) cs) rs

/-- The lookup loop of `Router.get_route`: follow `children` through the
segment list; `None` as soon as a segment is missing. -/
def findNode {H Q B : Type} :
    NodeRoute H Q B → List String → Option (NodeRoute H Q B)
  | n, [] => some n
  | n, s :: rest =>
      match lookupChild s n.children with
      | none => none
      | some c => findNode c rest

/-- `Router` of `src/asgi/router.py`: just the root trie node. -/
structure Router (H Q B : Type) where
  root : NodeRoute H Q B

/-- Fresh router: `self.root = _NodeRoute()`. -/
def Router.new (H Q B : Type) : Router H Q B := ⟨NodeRoute.empty H Q B⟩

/-- Python `str.split(sep)` for a one-character separator, on the character
list of the string: split at every occurrence of `sep`, keeping empty
pieces (`"".split("/") == [""]`, `"a//b".split("/") == ["a","","b"]`). -/
def splitCharList (sep : Char) : List Char → List (List Char)
  | [] => [[]]
  | c :: rest =>
      match splitCharList sep rest with
      | [] => []
      | piece :: pieces =>
          if c = sep then [] :: piece :: pieces else (c :: piece) :: pieces

/-- `Router.get_segments`: `""` and `"/"` map to `["/"]`; any other path
becomes `["/"]` followed by its `path.split("/")` pieces with empty pieces
dropped (`[seg for seg in path.split("/") if seg]`). -/
def Router.get_segments (path : String) : List String :=
  if path = "" ∨ path = "/" then ["/"]
  else "/" ::
    (((splitCharList '/' path.data).map (fun l => String.mk l)).filter
      (fun seg => seg ≠ ""))

/-- `Router.add_route(path, handler, method, query_string_extractor,
body_extractor)`. The `assert method in Methods` guard is vacuous here since
`m : Methods`. -/
def Router.add_route {H Q B : Type} (r : Router H Q B) (path : String)
    (handler : H) (method : Methods)
    (query_string_extractor : Option Q) (body_extractor : Option B) :
    Router H Q B :=
  ⟨insertPath r.root (Router.get_segments path) method
    ⟨handler, query_string_extractor, body_extractor⟩⟩

/-- Result of `Router.get_route`: a found `_Route`, the `return None` of an
unknown path, or the raised `MethodNotAllowedException` (from
`asgi.exceptions`) carrying the offending method and path, which the Python
code formats into the exception message. -/
inductive GetRouteResult (H Q B : Type) where
  | found (r : Route H Q B)
  | notFound
  | methodNotAllowed (method : Methods) (path : String)
deriving DecidableEq, Repr

/-- `Router.get_route(path, method)`: walk the trie by segments, returning
`None` when a segment is missing; at the final node raise
`MethodNotAllowedException` if `routes[method]` is `None`, else return it. -/
def Router.get_route {H Q B : Type} (r : Router H Q B) (path : String)
    (method : Methods) : GetRouteResult H Q B :=
  match findNode r.root (Router.get_segments path) with
  | none => .notFound
  | some n =>
      match n.routes method with
      | none => .methodNotAllowed method path
      | some rt => .found rt

/-- Erase the exception message data from a `get_route` result, keeping only
how the lookup resolved: `none` = unknown path, `some none` = method not
allowed at an existing node, `some (some rt)` = found `rt`. -/
def GetRouteResult.outcome {H Q B : Type} :
    GetRouteResult H Q B → Option (Option (Route H Q B))
  | .notFound => none
  | .methodNotAllowed _ _ => some none
  | .found rt => some (some rt)

/-!
## Background task engine

`asgi/background_tasks.py` is not in the source tree; only its unit tests
are. The definitions below are modelled from the spec (spec.md sections 3,
4, 6, 7) and match the state fields and call shapes the tests exercise
(`_tasks_map`, `_task_queue`, `_on_going_tasks`, `_is_server_shutting_down`,
`max_running_tasks`). The task registry dict is an insertion-ordered
association list; the FIFO queue is a list with its front at the head.
-/

/-- Modelled from the spec: `TaskParams`, the opaque payload container the
engine never inspects (tests build it as `TaskParams(data="...")`). -/
structure TaskParams where
  data : String
deriving DecidableEq, Repr

/-- Modelled from the spec: a `Task` — id, handler reference (opaque here),
params, retry/timeout policy, and the attempt counter initialised to 1. -/
structure Task where
  id : String
  handler : Nat
  params : TaskParams
  max_retries : Nat
  timeout_after : Option Nat
  attempts : Nat
deriving DecidableEq, Repr

/-- Modelled from the spec: `create_task` factory producing a fully
configured task with `attempts = 1`. The generated id (handler name,
uniqueness token, timestamp) depends on the clock, so it is an input here. -/
def create_task (id : String) (handler : Nat) (params : TaskParams)
    (max_retries : Nat) (timeout_after : Option Nat) : Task :=
  { id := id, handler := handler, params := params,
    max_retries := max_retries, timeout_after := timeout_after, attempts := 1 }

/-- Registry lookup `id in self._tasks_map` / `self._tasks_map[id]`. -/
def mapFind (k : String) : List (String × Task) → Option Task
  | [] => none
  | (k', v) :: rest => if k' = k then some v else mapFind k rest

/-- Registry write `self._tasks_map[id] = task`: replace in place when the
key exists, append otherwise (Python dict semantics). -/
def mapSet (k : String) (v : Task) : List (String × Task) → List (String × Task)
  | [] => [(k, v)]
  | (k', w) :: rest => if k' = k then (k', v) :: rest else (k', w) :: mapSet k v rest

/-- Registry delete `del self._tasks_map[id]`. -/
def mapErase (k : String) (m : List (String × Task)) : List (String × Task) :=
  m.filter (fun kv => kv.1 ≠ k)

/-- Modelled from the spec: the engine state of `BackgroundTasks` —
registry, FIFO queue of pending ids, count of running tasks, shutdown flag,
and the fixed concurrency cap. Counters are Python ints, so `Int` here. -/
structure BackgroundTasks where
  tasks_map : List (String × Task)
  task_queue : List String
  on_going_tasks : Int
  is_server_shutting_down : Bool
  max_running_tasks : Int
deriving DecidableEq, Repr

/-- A Python value passed for `max_running_tasks`: an actual `int`, or any
value failing the integer type check (`"5"`, `5.5`, `None`, ...), carried
with a description of what it was. -/
inductive PyArg where
  | int (n : Int)
  | nonInteger (descr : String)
deriving DecidableEq, Repr

namespace BackgroundTasks

/-- Modelled from the spec: engine construction. The integer-type check
comes first (tests: `"5"`, `5.5`, `None` all report "must be an integer"),
then non-negativity; failures are `AssertionError`s with the exact test
messages. On success the state is empty registry/queue, `on_going = 0`,
not shutting down. -/
def init (max_running_tasks : PyArg) : Except String BackgroundTasks :=
  match max_running_tasks with
  | .nonInteger _ => .error "max_running_tasks must be an integer"
  | .int n =>
      if n < 0 then .error "max_running_tasks must be minimum 0"
      else .ok { tasks_map := [], task_queue := [], on_going_tasks := 0,
                 is_server_shutting_down := false, max_running_tasks := n }

/-- Admission of one task inside `add_tasks`: if not shutting down, insert
into the registry and append the id to the queue; otherwise silently drop. -/
def add_one (st : BackgroundTasks) (t : Task) : BackgroundTasks :=
  if st.is_server_shutting_down then st
  else { st with tasks_map := mapSet t.id t st.tasks_map,
                 task_queue := st.task_queue ++ [t.id] }

/-- Modelled from the spec: `add_tasks(tasks)` — per-task admission. -/
def add_tasks (st : BackgroundTasks) (ts : List Task) : BackgroundTasks :=
  ts.foldl add_one st

/-- Modelled from the spec: `_get_tasks_to_process()` — the eligible batch
for one cycle: empty when shutting down; otherwise the first
`max_running_tasks - on_going_tasks` queued ids (empty when the queue is
empty or there is no spare capacity). -/
def get_tasks_to_process (st : BackgroundTasks) : List String :=
  if st.is_server_shutting_down then []
  else st.task_queue.take (st.max_running_tasks - st.on_going_tasks).toNat

/-- Modelled from the spec: the synchronous bookkeeping of `run_tasks()` —
pop the eligible batch off the queue and reserve a slot per popped id by
incrementing `on_going_tasks` before any task body runs. Returns the new
state and the batch of ids whose executions are launched concurrently. -/
def run_tasks (st : BackgroundTasks) : BackgroundTasks × List String :=
  let batch := st.get_tasks_to_process
  ({ st with task_queue := st.task_queue.drop batch.length,
             on_going_tasks := st.on_going_tasks + batch.length }, batch)

/-- Modelled from the spec: `_put_back_to_queue_if_allowed(id)` — the retry
gate, with its checks in spec order: unknown id → no-op false; shutting
down → false, task left in the registry; `attempts ≥ maxRetries` → remove
from registry, false; otherwise increment `attempts`, append `id` to the
back of the queue, true. -/
def put_back_to_queue_if_allowed (st : BackgroundTasks) (id : String) :
    BackgroundTasks × Bool :=
  match mapFind id st.tasks_map with
  | none => (st, false)
  | some t =>
      if st.is_server_shutting_down then (st, false)
      else if t.max_retries ≤ t.attempts then
        ({ st with tasks_map := mapErase id st.tasks_map }, false)
      else
        ({ st with
            tasks_map := mapSet id { t with attempts := t.attempts + 1 } st.tasks_map,
            task_queue := st.task_queue ++ [id] }, true)

/-- How one invocation of a task's handler resolves: normal completion, the
`timeoutAfter` race expiring first, or an unhandled exception. -/
inductive RunOutcome where
  | success
  | timeout
  | exception
deriving DecidableEq, Repr

/-- Modelled from the spec: `_run_task(id)` — look the task up and settle
the given handler outcome: success and unhandled exception both remove the
task from the registry and decrement `on_going_tasks` (exceptions are
contained, never propagated and never retried); timeout decrements
`on_going_tasks` and goes through the retry gate. The engine only invokes
this for ids it dispatched, which are in the registry; a missing id leaves
the state unchanged. -/
def run_task (st : BackgroundTasks) (id : String) (outcome : RunOutcome) :
    BackgroundTasks :=
  match mapFind id st.tasks_map with
  | none => st
  | some _ =>
      match outcome with
      | .success =>
          { st with tasks_map := mapErase id st.tasks_map,
                    on_going_tasks := st.on_going_tasks - 1 }
      | .exception =>
          { st with tasks_map := mapErase id st.tasks_map,
                    on_going_tasks := st.on_going_tasks - 1 }
      | .timeout =>
          (put_back_to_queue_if_allowed
            { st with on_going_tasks := st.on_going_tasks - 1 } id).1

/-- Modelled from the spec: `_clean_queue()` — empty the queue, touching
neither the registry nor `on_going_tasks`. -/
def clean_queue (st : BackgroundTasks) : BackgroundTasks :=
  { st with task_queue := [] }

/-- Modelled from the spec: the state effect of `shutdown(timeout)` — set
the flag, then drain the queue. The subsequent bounded wait only observes
`on_going_tasks` and mutates nothing; it is `waitForDrain` below. -/
def shutdown_state (st : BackgroundTasks) : BackgroundTasks :=
  clean_queue { st with is_server_shutting_down := true }

end BackgroundTasks

/-- Modelled from the spec: the cooperative wait loop of `shutdown(timeout)`
— poll `on_going_tasks` (`obs k` is the value seen at the k-th poll) until
it reaches 0 or the fuel (timeout divided by the poll interval) runs out;
returns the number of polls performed. Totality of this function is the
"returns in every case" guarantee. -/
def waitForDrain : Nat → (Nat → Int) → Nat
  | 0, _ => 0
  | fuel + 1, obs =>
      if obs 0 ≤ 0 then 0 else waitForDrain fuel (fun k => obs (k + 1)) + 1

/-!
## Router lemmas
-/

theorem lookupChild_setChild_same {H Q B : Type} (s : String) (v : NodeRoute H Q B)
    (l : List (String × NodeRoute H Q B)) :
    lookupChild s (setChild s v l) = some v := by
  induction l with
  | nil => simp [setChild, lookupChild]
  | cons kw rest ih =>
      obtain ⟨k, w⟩ := kw
      by_cases h : k = s
      · simp [setChild, lookupChild, h]
      · simp [setChild, lookupChild, h, ih]

theorem findNode_insertPath {H Q B : Type} (m : Methods) (rt : Route H Q B) :
    ∀ (segs : List String) (n : NodeRoute H Q B),
      ∃ n', findNode (insertPath n segs m rt) segs = some n'
        ∧ n'.routes m = some rt
  | [], .node cs rs =>
      ⟨.node cs (fun m' => if m' = m then some rt else rs m'), rfl,
        by simp [NodeRoute.routes]⟩
  | s :: rest, .node cs rs => by
      obtain ⟨n', h1, h2⟩ := findNode_insertPath m rt rest
        (match lookupChild s cs with
          | some c => c
          | none => NodeRoute.empty H Q B)
      refine ⟨n', ?_, h2⟩
      simp only [insertPath, findNode, NodeRoute.children,
        lookupChild_setChild_same]
      exact h1

theorem get_route_outcome_congr {H Q B : Type} (r : Router H Q B) (m : Methods)
    (p1 p2 : String) (h : Router.get_segments p1 = Router.get_segments p2) :
    (r.get_route p1 m).outcome = (r.get_route p2 m).outcome := by
  cases hf : findNode r.root (Router.get_segments p2) with
  | none => simp [Router.get_route, h, hf, GetRouteResult.outcome]
  | some n =>
      cases hr : n.routes m <;>
        simp [Router.get_route, h, hf, hr, GetRouteResult.outcome]

theorem splitCharList_ne_nil (sep : Char) (l : List Char) :
    splitCharList sep l ≠ [] := by
  induction l with
  | nil => simp [splitCharList]
  | cons c rest ih =>
      unfold splitCharList
      cases h : splitCharList sep rest with
      | nil => exact absurd h ih
      | cons piece pieces => dsimp only; split <;> simp

theorem splitCharList_append_sep (sep : Char) (a b : List Char) :
    splitCharList sep (a ++ sep :: b) =
      splitCharList sep a ++ splitCharList sep b := by
  induction a with
  | nil =>
      simp only [List.nil_append, splitCharList]
      cases h : splitCharList sep b with
      | nil => exact absurd h (splitCharList_ne_nil sep b)
      | cons piece pieces => simp
  | cons c a' ih =>
      simp only [List.cons_append, splitCharList, List.append_eq]
      rw [ih]
      cases h' : splitCharList sep a' with
      | nil => exact absurd h' (splitCharList_ne_nil sep a')
      | cons p ps =>
          show (if c = sep then [] :: p :: (ps ++ splitCharList sep b)
                else (c :: p) :: (ps ++ splitCharList sep b)) = _
          split <;> simp

/-- The non-special branch of `get_segments` on a character list: split on
`'/'` and keep the non-empty pieces as strings. -/
def segsF (l : List Char) : List String :=
  ((splitCharList '/' l).map (fun c => String.mk c)).filter (fun seg => seg ≠ "")

theorem segsF_append_sep (a b : List Char) :
    segsF (a ++ '/' :: b) = segsF a ++ segsF b := by
  simp [segsF, splitCharList_append_sep]

theorem get_segments_of_ne (p : String) (h1 : p ≠ "") (h2 : p ≠ "/") :
    Router.get_segments p = "/" :: segsF p.data := by
  simp [Router.get_segments, segsF, h1, h2]

theorem eq_empty_of_data_eq_nil (p : String) (h : p.data = []) : p = "" :=
  String.ext (by simp [h])

theorem get_segments_append_slash (p : String) :
    Router.get_segments (p ++ "/") = Router.get_segments p := by
  by_cases hp : p = ""
  · subst hp; rfl
  by_cases hp' : p = "/"
  · subst hp'; decide
  have hne : p.data ≠ [] := fun h => hp (eq_empty_of_data_eq_nil p h)
  have h1 : p ++ "/" ≠ "" := by
    intro h
    have := congrArg String.data h
    simp [String.data_append] at this
  have h2 : p ++ "/" ≠ "/" := by
    intro h
    have := congrArg String.data h
    simp only [String.data_append] at this
    have : p.data = [] := by
      have hl := congrArg List.length this
      simp at hl
      exact List.length_eq_zero.mp hl
    exact hne this
  rw [get_segments_of_ne _ h1 h2, get_segments_of_ne _ hp hp']
  have hdata : (p ++ "/").data = p.data ++ '/' :: [] := by
    simp [String.data_append]
  rw [hdata, segsF_append_sep]
  simp [segsF, splitCharList]

theorem get_segments_double_slash (p q : String) :
    Router.get_segments (p ++ "//" ++ q) = Router.get_segments (p ++ "/" ++ q) := by
  by_cases hpq : p = "" ∧ q = ""
  · obtain ⟨hp, hq⟩ := hpq; subst hp; subst hq; decide
  have hne : p.data ≠ [] ∨ q.data ≠ [] := by
    by_contra hc
    push_neg at hc
    exact hpq ⟨eq_empty_of_data_eq_nil p hc.1, eq_empty_of_data_eq_nil q hc.2⟩
  have hd2 : (p ++ "//" ++ q).data = p.data ++ '/' :: ('/' :: q.data) := by
    simp [String.data_append]
  have hd1 : (p ++ "/" ++ q).data = p.data ++ '/' :: q.data := by
    simp [String.data_append]
  have hne2 : ∀ s : String, s.data = p.data ++ '/' :: ('/' :: q.data) →
      s ≠ "" ∧ s ≠ "/" := by
    intro s hs
    constructor
    · intro h; subst h; simp at hs
    · intro h; subst h
      have hl := congrArg List.length hs
      simp at hl
      omega
  have hne1 : (p ++ "/" ++ q) ≠ "" ∧ (p ++ "/" ++ q) ≠ "/" := by
    constructor
    · intro h
      have := congrArg String.data h
      rw [hd1] at this
      simp at this
    · intro h
      have hdat := congrArg String.data h
      rw [hd1] at hdat
      have hsl : ("/" : String).data = ['/'] := rfl
      rw [hsl] at hdat
      have hl := congrArg List.length hdat
      simp only [List.length_append, List.length_cons, List.length_nil] at hl
      have hp0 : p.data.length = 0 := by omega
      have hq0 : q.data.length = 0 := by omega
      exact hpq ⟨eq_empty_of_data_eq_nil p (List.length_eq_zero.mp hp0),
        eq_empty_of_data_eq_nil q (List.length_eq_zero.mp hq0)⟩
  obtain ⟨h1, h2⟩ := hne2 _ hd2
  rw [get_segments_of_ne _ h1 h2, get_segments_of_ne _ hne1.1 hne1.2,
    hd2, hd1, segsF_append_sep, segsF_append_sep]
  have : segsF ('/' :: q.data) = segsF ([] ++ '/' :: q.data) := rfl
  rw [this, segsF_append_sep]
  rfl

/-!
## Claim theorems for the router
-/

/-- C9: add/get round-trip. After `add_route(p, h, m, qse, be)` on any
router (so in particular overwriting any earlier route at the same `(p, m)`),
`get_route(p, m)` returns a `_Route` carrying exactly `h`, `qse`, `be`.
`get_segments` maps both `""` and `"/"` to `["/"]`, paths with equal segment
lists resolve to the same route outcome, and appending a trailing slash or
doubling a slash leaves the segment list — hence the resolution — unchanged. -/
theorem C9_router_add_get_round_trip {H Q B : Type} (r : Router H Q B)
    (path : String) (hd : H) (m : Methods) (qse : Option Q) (be : Option B) :
    Router.get_route (r.add_route path hd m qse be) path m
        = .found ⟨hd, qse, be⟩
    ∧ (∀ p1 p2 : String, Router.get_segments p1 = Router.get_segments p2 →
        ∀ (r' : Router H Q B) (m' : Methods),
          (r'.get_route p1 m').outcome = (r'.get_route p2 m').outcome)
    ∧ Router.get_segments "" = ["/"]
    ∧ Router.get_segments "/" = ["/"]
    ∧ (∀ p : String, Router.get_segments (p ++ "/") = Router.get_segments p)
    ∧ (∀ p q : String,
        Router.get_segments (p ++ "//" ++ q)
          = Router.get_segments (p ++ "/" ++ q)) := by
  refine ⟨?_, fun p1 p2 h r' m' => get_route_outcome_congr r' m' p1 p2 h,
    rfl, rfl, get_segments_append_slash, get_segments_double_slash⟩
  obtain ⟨n', h1, h2⟩ :=
    findNode_insertPath m ⟨hd, qse, be⟩ (Router.get_segments path) r.root
  simp [Router.get_route, Router.add_route, h1, h2]

/-- Witness for C9 at concrete inputs: a fresh router with `/files/docs`
registered under POST round-trips, and `/a//b/` resolves like `/a/b`. -/
theorem C9_router_add_get_round_trip_witness :
    Router.get_route
        ((Router.new Nat Nat Nat).add_route "/files/docs" 7 .POST (some 1) none)
        "/files/docs" .POST = .found ⟨7, some 1, none⟩
    ∧ (((Router.new Nat Nat Nat).add_route "/a/b" 3 .GET none none).get_route
          "/a//b/" .GET).outcome
        = (((Router.new Nat Nat Nat).add_route "/a/b" 3 .GET none none).get_route
          "/a/b" .GET).outcome :=
  ⟨(C9_router_add_get_round_trip (Router.new Nat Nat Nat) "/files/docs" 7
      .POST (some 1) none).1,
   (C9_router_add_get_round_trip (Router.new Nat Nat Nat) "/files/docs" 7
      .POST (some 1) none).2.1 "/a//b/" "/a/b" (by decide) _ .GET⟩

/-- C10: lookup failure asymmetry. When some segment of the path has no
node in the trie, `get_route` returns `None`; when the path's node exists
but has no route for the method, it raises `MethodNotAllowedException`
instead; and when a route is registered there it is returned. -/
theorem C10_get_route_failure_asymmetry {H Q B : Type} (r : Router H Q B)
    (path : String) (m : Methods) :
    (findNode r.root (Router.get_segments path) = none →
      r.get_route path m = .notFound)
    ∧ ((findNode r.root (Router.get_segments path)).map (fun n => n.routes m)
          = some none →
      r.get_route path m = .methodNotAllowed m path)
    ∧ (∀ rt : Route H Q B,
      (findNode r.root (Router.get_segments path)).map (fun n => n.routes m)
          = some (some rt) →
      r.get_route path m = .found rt) := by
  refine ⟨fun hf => ?_, fun hf => ?_, fun rt hf => ?_⟩
  · simp [Router.get_route, hf]
  · cases hn : findNode r.root (Router.get_segments path) with
    | none => rw [hn] at hf; exact Option.noConfusion hf
    | some n =>
        rw [hn] at hf
        have hr : n.routes m = none := by simpa using hf
        simp [Router.get_route, hn, hr]
  · cases hn : findNode r.root (Router.get_segments path) with
    | none => rw [hn] at hf; exact Option.noConfusion hf
    | some n =>
        rw [hn] at hf
        have hr : n.routes m = some rt := by simpa using hf
        simp [Router.get_route, hn, hr]

/-- Witness for C10: in a router holding only `GET /a`, looking up `/b`
(unknown path) returns `None`, while `POST /a` (known path, unregistered
method) raises, and `GET /a` is found. -/
theorem C10_get_route_failure_asymmetry_witness :
    ((Router.new Nat Nat Nat).add_route "/a" 5 .GET none none).get_route
        "/b" .GET = .notFound
    ∧ ((Router.new Nat Nat Nat).add_route "/a" 5 .GET none none).get_route
        "/a" .POST = .methodNotAllowed .POST "/a"
    ∧ ((Router.new Nat Nat Nat).add_route "/a" 5 .GET none none).get_route
        "/a" .GET = .found ⟨5, none, none⟩ :=
  ⟨(C10_get_route_failure_asymmetry
      ((Router.new Nat Nat Nat).add_route "/a" 5 .GET none none) "/b" .GET).1
      rfl,
   (C10_get_route_failure_asymmetry
      ((Router.new Nat Nat Nat).add_route "/a" 5 .GET none none) "/a" .POST).2.1
      rfl,
   (C10_get_route_failure_asymmetry
      ((Router.new Nat Nat Nat).add_route "/a" 5 .GET none none) "/a" .GET).2.2
      ⟨5, none, none⟩ rfl⟩

/-!
## Registry (dict) lemmas
-/

theorem mapFind_mapSet_self (k : String) (v : Task) (m : List (String × Task)) :
    mapFind k (mapSet k v m) = some v := by
  induction m with
  | nil => simp [mapSet, mapFind]
  | cons kv rest ih =>
      obtain ⟨k', w⟩ := kv
      by_cases h : k' = k
      · simp [mapSet, mapFind, h]
      · simp [mapSet, mapFind, h, ih]

theorem mapFind_mapSet_ne (k k' : String) (v : Task) (m : List (String × Task))
    (h : k' ≠ k) : mapFind k' (mapSet k v m) = mapFind k' m := by
  induction m with
  | nil => simp [mapSet, mapFind, Ne.symm h]
  | cons kv rest ih =>
      obtain ⟨k0, w⟩ := kv
      by_cases h0 : k0 = k
      · subst h0
        simp [mapSet, mapFind, Ne.symm h]
      · simp [mapSet, mapFind, h0, ih]

theorem mapFind_mapErase_self (k : String) (m : List (String × Task)) :
    mapFind k (mapErase k m) = none := by
  induction m with
  | nil => simp [mapErase, mapFind]
  | cons kv rest ih =>
      obtain ⟨k0, w⟩ := kv
      by_cases h0 : k0 = k
      · simpa [mapErase, h0] using ih
      · simpa [mapErase, mapFind, h0] using ih

theorem mapFind_mapErase_ne (k k' : String) (m : List (String × Task))
    (h : k' ≠ k) : mapFind k' (mapErase k m) = mapFind k' m := by
  induction m with
  | nil => simp [mapErase, mapFind]
  | cons kv rest ih =>
      obtain ⟨k0, w⟩ := kv
      by_cases h0 : k0 = k
      · subst h0
        simpa [mapErase, mapFind, Ne.symm h] using ih
      · by_cases h1 : k0 = k'
        · simp [mapErase, mapFind, List.filter_cons, h0, h1, h]
        · simpa [mapErase, mapFind, List.filter_cons, h0, h1] using ih

theorem length_mapSet_of_none (k : String) (v : Task) (m : List (String × Task))
    (h : mapFind k m = none) : (mapSet k v m).length = m.length + 1 := by
  induction m with
  | nil => simp [mapSet]
  | cons kv rest ih =>
      obtain ⟨k0, w⟩ := kv
      by_cases h0 : k0 = k
      · simp [mapFind, h0] at h
      · simp only [mapFind, if_neg h0] at h
        simp [mapSet, h0, ih h]

/-!
## Claim theorems for the engine
-/

/-- C1: the retry gate `_put_back_to_queue_if_allowed(id)` branches exactly
as specified — unknown id: no-op, false; shutting down: false with the task
left in the registry; `attempts ≥ maxRetries`: task removed from the
registry, false; otherwise `attempts` is incremented by exactly 1, `id` is
appended to the back of the queue, and it returns true. -/
theorem C1_retry_gate_branches (st : BackgroundTasks) (id : String) :
    (mapFind id st.tasks_map = none →
      st.put_back_to_queue_if_allowed id = (st, false))
    ∧ (∀ t, mapFind id st.tasks_map = some t →
        st.is_server_shutting_down = true →
        st.put_back_to_queue_if_allowed id = (st, false))
    ∧ (∀ t, mapFind id st.tasks_map = some t →
        st.is_server_shutting_down = false →
        t.max_retries ≤ t.attempts →
        st.put_back_to_queue_if_allowed id =
          ({ st with tasks_map := mapErase id st.tasks_map }, false))
    ∧ (∀ t, mapFind id st.tasks_map = some t →
        st.is_server_shutting_down = false →
        t.attempts < t.max_retries →
        st.put_back_to_queue_if_allowed id =
          ({ st with
              tasks_map :=
                mapSet id { t with attempts := t.attempts + 1 } st.tasks_map,
              task_queue := st.task_queue ++ [id] }, true)) := by
  refine ⟨fun h => ?_, fun t ht hs => ?_, fun t ht hs hr => ?_,
    fun t ht hs hr => ?_⟩
  · simp [BackgroundTasks.put_back_to_queue_if_allowed, h]
  · simp [BackgroundTasks.put_back_to_queue_if_allowed, ht, hs]
  · simp [BackgroundTasks.put_back_to_queue_if_allowed, ht, hs, hr]
  · simp [BackgroundTasks.put_back_to_queue_if_allowed, ht, hs,
      Nat.not_le.mpr hr]

/-- Witness for C1 at concrete states: all four branches observed. -/
theorem C1_retry_gate_branches_witness :
    (BackgroundTasks.put_back_to_queue_if_allowed
        ⟨[], [], 0, false, 2⟩ "nonexistent" = (⟨[], [], 0, false, 2⟩, false))
    ∧ (BackgroundTasks.put_back_to_queue_if_allowed
        ⟨[("a", create_task "a" 0 ⟨"x"⟩ 3 none)], [], 0, true, 2⟩ "a"
        = (⟨[("a", create_task "a" 0 ⟨"x"⟩ 3 none)], [], 0, true, 2⟩, false))
    ∧ (BackgroundTasks.put_back_to_queue_if_allowed
        ⟨[("a", { create_task "a" 0 ⟨"x"⟩ 2 none with attempts := 2 })], [], 0,
          false, 2⟩ "a"
        = (⟨[], [], 0, false, 2⟩, false))
    ∧ (BackgroundTasks.put_back_to_queue_if_allowed
        ⟨[("a", create_task "a" 0 ⟨"x"⟩ 3 none)], [], 0, false, 2⟩ "a"
        = (⟨[("a", { create_task "a" 0 ⟨"x"⟩ 3 none with attempts := 2 })],
            ["a"], 0, false, 2⟩, true)) :=
  ⟨(C1_retry_gate_branches ⟨[], [], 0, false, 2⟩ "nonexistent").1 rfl,
   (C1_retry_gate_branches _ "a").2.1 _ rfl rfl,
   (C1_retry_gate_branches _ "a").2.2.1 _ rfl rfl (by decide),
   (C1_retry_gate_branches _ "a").2.2.2 _ rfl rfl (by decide)⟩

/-- C5: construction. Every non-negative integer `m` yields the fresh
state (empty registry and queue, `on_going = 0`, not shutting down); any
non-integer argument fails with "max_running_tasks must be an integer";
any negative integer fails with "max_running_tasks must be minimum 0". -/
theorem C5_construction (a : PyArg) :
    (∀ n : Int, a = .int n → 0 ≤ n →
      BackgroundTasks.init a =
        .ok { tasks_map := [], task_queue := [], on_going_tasks := 0,
              is_server_shutting_down := false, max_running_tasks := n })
    ∧ (∀ d, a = .nonInteger d →
      BackgroundTasks.init a = .error "max_running_tasks must be an integer")
    ∧ (∀ n : Int, a = .int n → n < 0 →
      BackgroundTasks.init a =
        .error "max_running_tasks must be minimum 0") := by
  refine ⟨fun n ha hn => ?_, fun d ha => ?_, fun n ha hn => ?_⟩
  · subst ha; simp [BackgroundTasks.init, Int.not_lt.mpr hn]
  · subst ha; simp [BackgroundTasks.init]
  · subst ha; simp [BackgroundTasks.init, hn]

/-- Witness for C5: `5` succeeds with the fresh state, a float-like
non-integer and `-1` fail with the two distinct messages. -/
theorem C5_construction_witness :
    BackgroundTasks.init (.int 5) =
      .ok { tasks_map := [], task_queue := [], on_going_tasks := 0,
            is_server_shutting_down := false, max_running_tasks := 5 }
    ∧ BackgroundTasks.init (.nonInteger "5.5") =
      .error "max_running_tasks must be an integer"
    ∧ BackgroundTasks.init (.int (-1)) =
      .error "max_running_tasks must be minimum 0" :=
  ⟨(C5_construction (.int 5)).1 5 rfl (by decide),
   (C5_construction (.nonInteger "5.5")).2.1 "5.5" rfl,
   (C5_construction (.int (-1))).2.2 (-1) rfl (by decide)⟩

/-- C2: a dispatch cycle launches at most `maxRunningTasks - onGoing` tasks
(the launched batch is exactly `_get_tasks_to_process`), and the eligible
batch is empty when the queue is empty, when there is no spare capacity, and
when shutting down. -/
theorem C2_dispatch_bound (st : BackgroundTasks) :
    (st.run_tasks).2.length ≤ (st.max_running_tasks - st.on_going_tasks).toNat
    ∧ (st.run_tasks).2 = st.get_tasks_to_process
    ∧ (st.task_queue = [] → st.get_tasks_to_process = [])
    ∧ (st.max_running_tasks ≤ st.on_going_tasks →
        st.get_tasks_to_process = [])
    ∧ (st.is_server_shutting_down = true → st.get_tasks_to_process = []) := by
  refine ⟨?_, rfl, fun h => ?_, fun h => ?_, fun h => ?_⟩
  · show (st.get_tasks_to_process).length ≤ _
    unfold BackgroundTasks.get_tasks_to_process
    split
    · simp
    · simp [List.length_take]
  · simp [BackgroundTasks.get_tasks_to_process, h]
  · have h0 : (st.max_running_tasks - st.on_going_tasks).toNat = 0 := by
      omega
    simp [BackgroundTasks.get_tasks_to_process, h0]
  · simp [BackgroundTasks.get_tasks_to_process, h]

/-- Witness for C2: a full engine (`onGoing = maxRunningTasks = 2`) with a
queued id yields an empty batch; an empty-queue engine yields an empty
batch; a shutting-down engine yields an empty batch. -/
theorem C2_dispatch_bound_witness :
    BackgroundTasks.get_tasks_to_process
      ⟨[("a", create_task "a" 0 ⟨"x"⟩ 3 none)], ["a"], 2, false, 2⟩ = []
    ∧ BackgroundTasks.get_tasks_to_process ⟨[], [], 0, false, 2⟩ = []
    ∧ BackgroundTasks.get_tasks_to_process
      ⟨[("a", create_task "a" 0 ⟨"x"⟩ 3 none)], ["a"], 0, true, 2⟩ = [] :=
  ⟨(C2_dispatch_bound
      ⟨[("a", create_task "a" 0 ⟨"x"⟩ 3 none)], ["a"], 2, false, 2⟩).2.2.2.1
      (by decide),
   (C2_dispatch_bound ⟨[], [], 0, false, 2⟩).2.2.1 rfl,
   (C2_dispatch_bound
      ⟨[("a", create_task "a" 0 ⟨"x"⟩ 3 none)], ["a"], 0, true, 2⟩).2.2.2.2
      rfl⟩

/-- C7: `_run_task` on a handler that completes or raises removes the task
from the registry and decrements `on_going_tasks` by exactly 1, for every
task — in particular independently of `attempts`/`maxRetries`, so a raising
handler is never retried (the queue is untouched). Containment of the
exception is the fact that the result is an ordinary state: `run_task` is a
total function into `BackgroundTasks`, never an error. -/
theorem C7_run_task_success_exception (st : BackgroundTasks) (id : String)
    (t : Task) (h : mapFind id st.tasks_map = some t) :
    st.run_task id .success =
      { st with tasks_map := mapErase id st.tasks_map,
                on_going_tasks := st.on_going_tasks - 1 }
    ∧ st.run_task id .exception =
      { st with tasks_map := mapErase id st.tasks_map,
                on_going_tasks := st.on_going_tasks - 1 }
    ∧ mapFind id (st.run_task id .exception).tasks_map = none
    ∧ (st.run_task id .exception).task_queue = st.task_queue
    ∧ (st.run_task id .success).task_queue = st.task_queue := by
  refine ⟨?_, ?_, ?_, ?_, ?_⟩ <;>
    simp [BackgroundTasks.run_task, h, mapFind_mapErase_self]

/-- Witness for C7: a one-task engine settles success and exception: the
task leaves the registry, `on_going_tasks` drops from 1 to 0, and the task
whose `attempts` already equals `maxRetries` is not retried on exception. -/
theorem C7_run_task_success_exception_witness :
    BackgroundTasks.run_task
        ⟨[("a", create_task "a" 0 ⟨"x"⟩ 3 none)], [], 1, false, 2⟩ "a" .success
      = ⟨[], [], 0, false, 2⟩
    ∧ BackgroundTasks.run_task
        ⟨[("a", { create_task "a" 0 ⟨"x"⟩ 3 none with attempts := 1 })], [], 1,
          false, 2⟩ "a" .exception
      = ⟨[], [], 0, false, 2⟩ :=
  ⟨(C7_run_task_success_exception
      ⟨[("a", create_task "a" 0 ⟨"x"⟩ 3 none)], [], 1, false, 2⟩ "a"
      (create_task "a" 0 ⟨"x"⟩ 3 none) rfl).1,
   (C7_run_task_success_exception
      ⟨[("a", { create_task "a" 0 ⟨"x"⟩ 3 none with attempts := 1 })], [], 1,
        false, 2⟩ "a" _ rfl).2.1⟩

theorem waitForDrain_le (fuel : Nat) : ∀ obs : Nat → Int,
    waitForDrain fuel obs ≤ fuel := by
  induction fuel with
  | zero => intro obs; simp [waitForDrain]
  | succ n ih =>
      intro obs
      unfold waitForDrain
      split
      · omega
      · have := ih (fun k => obs (k + 1))
        omega

/-- C8: `shutdown(timeout)` sets `shuttingDown` immediately and drains the
pending queue, the drain touching neither the registry nor `on_going_tasks`;
the cooperative wait always terminates within its fuel (timeout) and, with
zero in-flight tasks, performs no waiting at all. -/
theorem C8_shutdown (st : BackgroundTasks) :
    (st.shutdown_state).is_server_shutting_down = true
    ∧ (st.shutdown_state).task_queue = []
    ∧ (st.shutdown_state).tasks_map = st.tasks_map
    ∧ (st.shutdown_state).on_going_tasks = st.on_going_tasks
    ∧ st.clean_queue.tasks_map = st.tasks_map
    ∧ st.clean_queue.on_going_tasks = st.on_going_tasks
    ∧ st.clean_queue.task_queue = []
    ∧ (∀ (fuel : Nat) (obs : Nat → Int), waitForDrain fuel obs ≤ fuel)
    ∧ (∀ (fuel : Nat) (obs : Nat → Int), obs 0 ≤ 0 →
        waitForDrain fuel obs = 0) := by
  refine ⟨rfl, rfl, rfl, rfl, rfl, rfl, rfl, waitForDrain_le,
    fun fuel obs h => ?_⟩
  cases fuel with
  | zero => rfl
  | succ n => simp [waitForDrain, h]

/-- Witness for C8: a state with two queued tasks drains to an empty queue
with registry and counter untouched, and the wait with `obs 0 = 0` polls
zero times. -/
theorem C8_shutdown_witness :
    (BackgroundTasks.shutdown_state
      ⟨[("a", create_task "a" 0 ⟨"x"⟩ 3 none)], ["a"], 0, false, 2⟩).task_queue
      = []
    ∧ waitForDrain 100 (fun _ => 0) = 0 :=
  ⟨(C8_shutdown ⟨[("a", create_task "a" 0 ⟨"x"⟩ 3 none)], ["a"], 0, false, 2⟩).2.1,
   (C8_shutdown ⟨[], [], 0, false, 2⟩).2.2.2.2.2.2.2.2 100 (fun _ => 0)
     (by decide)⟩

theorem add_tasks_of_shutting (ts : List Task) : ∀ st : BackgroundTasks,
    st.is_server_shutting_down = true → st.add_tasks ts = st := by
  induction ts with
  | nil => intro st _; rfl
  | cons t ts ih =>
      intro st h
      have h1 : st.add_one t = st := by simp [BackgroundTasks.add_one, h]
      show BackgroundTasks.add_tasks (st.add_one t) ts = st
      rw [h1]
      exact ih st h

theorem add_tasks_lengths (ts : List Task) : ∀ st : BackgroundTasks,
    st.is_server_shutting_down = false →
    (∀ t ∈ ts, mapFind t.id st.tasks_map = none) →
    (ts.map Task.id).Nodup →
    (st.add_tasks ts).tasks_map.length = st.tasks_map.length + ts.length
      ∧ (st.add_tasks ts).task_queue.length
          = st.task_queue.length + ts.length := by
  induction ts with
  | nil => intro st _ _ _; exact ⟨rfl, rfl⟩
  | cons t ts ih =>
      intro st hs hf hn
      have hft : mapFind t.id st.tasks_map = none := hf t (by simp)
      have hadd : st.add_one t =
          { st with tasks_map := mapSet t.id t st.tasks_map,
                    task_queue := st.task_queue ++ [t.id] } := by
        simp [BackgroundTasks.add_one, hs]
      rw [List.map_cons, List.nodup_cons] at hn
      have hf' : ∀ t2 ∈ ts, mapFind t2.id (st.add_one t).tasks_map = none := by
        intro t2 ht2
        have hne : t2.id ≠ t.id := by
          intro he
          exact hn.1 (he ▸ List.mem_map_of_mem Task.id ht2)
        rw [hadd]
        dsimp only
        rw [mapFind_mapSet_ne _ _ _ _ hne]
        exact hf t2 (List.mem_cons_of_mem t ht2)
      have hs' : (st.add_one t).is_server_shutting_down = false := by
        rw [hadd]; exact hs
      obtain ⟨l1, l2⟩ := ih (st.add_one t) hs' hf' hn.2
      refine ⟨?_, ?_⟩
      · show (BackgroundTasks.add_tasks (st.add_one t) ts).tasks_map.length = _
        rw [l1, hadd]
        dsimp only
        rw [length_mapSet_of_none _ _ _ hft]
        simp; omega
      · show (BackgroundTasks.add_tasks (st.add_one t) ts).task_queue.length = _
        rw [l2, hadd]
        dsimp only
        simp; omega

/-- C6: `add_tasks` while not shutting down grows the registry and the
queue by exactly N (one registry insertion and one queue append per task;
the registry count needs the submitted ids to be fresh and pairwise
distinct, which the id factory guarantees); while shutting down it leaves
the whole state unchanged and reports nothing. -/
theorem C6_add_tasks (st : BackgroundTasks) (ts : List Task) :
    (st.is_server_shutting_down = false →
      (∀ t ∈ ts, mapFind t.id st.tasks_map = none) →
      (ts.map Task.id).Nodup →
      (st.add_tasks ts).tasks_map.length = st.tasks_map.length + ts.length
        ∧ (st.add_tasks ts).task_queue.length
            = st.task_queue.length + ts.length)
    ∧ (st.is_server_shutting_down = true → st.add_tasks ts = st) :=
  ⟨fun hs hf hn => add_tasks_lengths ts st hs hf hn,
   fun hs => add_tasks_of_shutting ts st hs⟩

/-- Witness for C6: adding two fresh tasks to an empty engine gives
registry and queue of size 2; the same call on a shutting-down engine
changes nothing. -/
theorem C6_add_tasks_witness :
    (BackgroundTasks.add_tasks ⟨[], [], 0, false, 2⟩
        [create_task "a_1_0" 0 ⟨"t1"⟩ 3 none,
         create_task "b_1_0" 1 ⟨"t2"⟩ 3 none]).tasks_map.length = 0 + 2
    ∧ (BackgroundTasks.add_tasks ⟨[], [], 0, false, 2⟩
        [create_task "a_1_0" 0 ⟨"t1"⟩ 3 none,
         create_task "b_1_0" 1 ⟨"t2"⟩ 3 none]).task_queue.length = 0 + 2
    ∧ BackgroundTasks.add_tasks ⟨[], [], 0, true, 2⟩
        [create_task "a_1_0" 0 ⟨"t1"⟩ 3 none] = ⟨[], [], 0, true, 2⟩ := by
  refine ⟨?_, ?_, (C6_add_tasks ⟨[], [], 0, true, 2⟩
    [create_task "a_1_0" 0 ⟨"t1"⟩ 3 none]).2 rfl⟩
  · exact ((C6_add_tasks ⟨[], [], 0, false, 2⟩ _).1 rfl (by decide)
      (by decide)).1
  · exact ((C6_add_tasks ⟨[], [], 0, false, 2⟩ _).1 rfl (by decide)
      (by decide)).2

/-- C3: a timed-out task is retried — `on_going_tasks` decremented,
`attempts` incremented by 1, id re-enqueued — exactly while
`attempts < maxRetries`; at `attempts = maxRetries` the timed-out task is
dropped from the registry instead. The closed conjunct runs the concrete
scenario: a task with `maxRetries = 3` that keeps timing out goes through
attempts 1 → 2 → 3 and is dropped on the third timeout. -/
theorem C3_timeout_retry_boundary (st : BackgroundTasks) (id : String)
    (t : Task) :
    (mapFind id st.tasks_map = some t → st.is_server_shutting_down = false →
      t.attempts < t.max_retries →
      st.run_task id .timeout =
        { st with
            on_going_tasks := st.on_going_tasks - 1,
            tasks_map :=
              mapSet id { t with attempts := t.attempts + 1 } st.tasks_map,
            task_queue := st.task_queue ++ [id] })
    ∧ (mapFind id st.tasks_map = some t → st.is_server_shutting_down = false →
      t.max_retries ≤ t.attempts →
      st.run_task id .timeout =
        { st with on_going_tasks := st.on_going_tasks - 1,
                  tasks_map := mapErase id st.tasks_map })
    ∧ (let t0 := create_task "h_1_10" 0 ⟨"x"⟩ 3 (some 1)
       let s1 := BackgroundTasks.add_tasks ⟨[], [], 0, false, 2⟩ [t0]
       let s3 := ((s1.run_tasks).1).run_task "h_1_10" .timeout
       let s5 := (((s3.run_tasks).1)).run_task "h_1_10" .timeout
       let s7 := (((s5.run_tasks).1)).run_task "h_1_10" .timeout
       mapFind "h_1_10" s3.tasks_map = some { t0 with attempts := 2 }
         ∧ s3.task_queue = ["h_1_10"] ∧ s3.on_going_tasks = 0
         ∧ mapFind "h_1_10" s5.tasks_map = some { t0 with attempts := 3 }
         ∧ s5.task_queue = ["h_1_10"] ∧ s5.on_going_tasks = 0
         ∧ mapFind "h_1_10" s7.tasks_map = none
         ∧ s7.task_queue = [] ∧ s7.on_going_tasks = 0) := by
  refine ⟨fun ht hs hr => ?_, fun ht hs hr => ?_, by decide⟩
  · simp [BackgroundTasks.run_task, BackgroundTasks.put_back_to_queue_if_allowed,
      ht, hs, Nat.not_le.mpr hr]
  · simp [BackgroundTasks.run_task, BackgroundTasks.put_back_to_queue_if_allowed,
      ht, hs, hr]

/-- Witness for C3: one timeout at `attempts = 1 < maxRetries = 3` retries
(attempts 2, re-enqueued), and one at `attempts = 3 = maxRetries` drops. -/
theorem C3_timeout_retry_boundary_witness :
    BackgroundTasks.run_task
        ⟨[("a", create_task "a" 0 ⟨"x"⟩ 3 (some 1))], [], 1, false, 2⟩ "a"
        .timeout
      = ⟨[("a", { create_task "a" 0 ⟨"x"⟩ 3 (some 1) with attempts := 2 })],
          ["a"], 0, false, 2⟩
    ∧ BackgroundTasks.run_task
        ⟨[("a", { create_task "a" 0 ⟨"x"⟩ 3 (some 1) with attempts := 3 })],
          [], 1, false, 2⟩ "a" .timeout
      = ⟨[], [], 0, false, 2⟩ :=
  ⟨(C3_timeout_retry_boundary
      ⟨[("a", create_task "a" 0 ⟨"x"⟩ 3 (some 1))], [], 1, false, 2⟩ "a"
      (create_task "a" 0 ⟨"x"⟩ 3 (some 1))).1 rfl rfl (by decide),
   (C3_timeout_retry_boundary
      ⟨[("a", { create_task "a" 0 ⟨"x"⟩ 3 (some 1) with attempts := 3 })],
        [], 1, false, 2⟩ "a"
      { create_task "a" 0 ⟨"x"⟩ 3 (some 1) with attempts := 3 }).2.1 rfl rfl
      (by decide)⟩

/-- The engine state invariant of spec.md section 3: every queued id has a
registry entry, the queue has no duplicate ids (ids are unique among live
tasks), and `0 ≤ on_going_tasks ≤ max_running_tasks`. -/
abbrev Inv (st : BackgroundTasks) : Prop :=
  (∀ id ∈ st.task_queue, (mapFind id st.tasks_map).isSome = true)
  ∧ st.task_queue.Nodup
  ∧ 0 ≤ st.on_going_tasks
  ∧ st.on_going_tasks ≤ st.max_running_tasks

theorem batch_length_le (st : BackgroundTasks) :
    (st.get_tasks_to_process).length
      ≤ (st.max_running_tasks - st.on_going_tasks).toNat := by
  unfold BackgroundTasks.get_tasks_to_process
  split
  · simp
  · simp [List.length_take]

theorem mem_take_not_mem_drop {l : List String} (h : l.Nodup) (k : Nat)
    (id : String) (hid : id ∈ l.take k) :
    id ∉ l.drop ((l.take k).length) := by
  have h1 : l.take ((l.take k).length) = l.take k := by
    rw [List.length_take]
    rcases Nat.le_total k l.length with hkl | hlk
    · rw [Nat.min_eq_left hkl]
    · rw [Nat.min_eq_right hlk, List.take_length, List.take_of_length_le hlk]
  have hd := List.disjoint_take_drop h (le_refl ((l.take k).length))
  intro hmem
  exact hd (by rw [h1]; exact hid) hmem

theorem put_back_eq_of_none (st : BackgroundTasks) (id : String)
    (hf : mapFind id st.tasks_map = none) :
    st.put_back_to_queue_if_allowed id = (st, false) := by
  simp [BackgroundTasks.put_back_to_queue_if_allowed, hf]

theorem put_back_eq_of_shutting (st : BackgroundTasks) (id : String) (t : Task)
    (hf : mapFind id st.tasks_map = some t)
    (hs : st.is_server_shutting_down = true) :
    st.put_back_to_queue_if_allowed id = (st, false) := by
  simp [BackgroundTasks.put_back_to_queue_if_allowed, hf, hs]

theorem put_back_eq_of_exhausted (st : BackgroundTasks) (id : String) (t : Task)
    (hf : mapFind id st.tasks_map = some t)
    (hs : st.is_server_shutting_down = false)
    (hr : t.max_retries ≤ t.attempts) :
    st.put_back_to_queue_if_allowed id =
      ({ st with tasks_map := mapErase id st.tasks_map }, false) := by
  simp [BackgroundTasks.put_back_to_queue_if_allowed, hf, hs, hr]

theorem put_back_eq_of_retry (st : BackgroundTasks) (id : String) (t : Task)
    (hf : mapFind id st.tasks_map = some t)
    (hs : st.is_server_shutting_down = false)
    (hr : t.attempts < t.max_retries) :
    st.put_back_to_queue_if_allowed id =
      ({ st with
          tasks_map := mapSet id { t with attempts := t.attempts + 1 }
            st.tasks_map,
          task_queue := st.task_queue ++ [id] }, true) := by
  simp [BackgroundTasks.put_back_to_queue_if_allowed, hf, hs, Nat.not_le.mpr hr]

theorem Inv_put_back (st : BackgroundTasks) (id : String) (hInv : Inv st)
    (hq : id ∉ st.task_queue) :
    Inv (st.put_back_to_queue_if_allowed id).1 := by
  obtain ⟨h1, h2, h3, h4⟩ := hInv
  unfold BackgroundTasks.put_back_to_queue_if_allowed
  cases hf : mapFind id st.tasks_map with
  | none => exact ⟨h1, h2, h3, h4⟩
  | some t =>
      by_cases hs : st.is_server_shutting_down = true
      · simp only [hs, if_true]
        exact ⟨h1, h2, h3, h4⟩
      · simp only [hs, if_false, Bool.false_eq_true]
        by_cases hr : t.max_retries ≤ t.attempts
        · simp only [if_pos hr]
          refine ⟨?_, h2, h3, h4⟩
          intro id' hid'
          have hne : id' ≠ id := fun he => hq (he ▸ hid')
          dsimp only
          rw [mapFind_mapErase_ne _ _ _ hne]
          exact h1 id' hid'
        · simp only [if_neg hr]
          refine ⟨?_, ?_, h3, h4⟩
          · intro id' hid'
            dsimp only at hid' ⊢
            rcases List.mem_append.mp hid' with hmem | hmem
            · by_cases he : id' = id
              · subst he; rw [mapFind_mapSet_self]; rfl
              · rw [mapFind_mapSet_ne _ _ _ _ he]; exact h1 id' hmem
            · have he : id' = id := by simpa using hmem
              subst he; rw [mapFind_mapSet_self]; rfl
          · dsimp only
            simp [List.nodup_append, h2, hq]

theorem Inv_run_task (st : BackgroundTasks) (id : String)
    (outcome : BackgroundTasks.RunOutcome) (hInv : Inv st)
    (hq : id ∉ st.task_queue) (hg : 1 ≤ st.on_going_tasks) :
    Inv (st.run_task id outcome) := by
  obtain ⟨h1, h2, h3, h4⟩ := hInv
  unfold BackgroundTasks.run_task
  cases hf : mapFind id st.tasks_map with
  | none => exact ⟨h1, h2, h3, h4⟩
  | some t =>
      cases outcome with
      | timeout =>
          show Inv (BackgroundTasks.put_back_to_queue_if_allowed
            { st with on_going_tasks := st.on_going_tasks - 1 } id).1
          refine Inv_put_back _ id ⟨h1, h2, ?_, ?_⟩ hq
          · show (0 : Int) ≤ st.on_going_tasks - 1
            omega
          · show st.on_going_tasks - 1 ≤ st.max_running_tasks
            omega
      | success =>
          show Inv { st with tasks_map := mapErase id st.tasks_map,
                             on_going_tasks := st.on_going_tasks - 1 }
          refine ⟨?_, h2, ?_, ?_⟩
          · intro id' hid'
            have hid2 : id' ∈ st.task_queue := hid'
            have hne : id' ≠ id := fun he => hq (he ▸ hid2)
            show (mapFind id' (mapErase id st.tasks_map)).isSome = true
            rw [mapFind_mapErase_ne _ _ _ hne]
            exact h1 id' hid2
          · show (0 : Int) ≤ st.on_going_tasks - 1
            omega
          · show st.on_going_tasks - 1 ≤ st.max_running_tasks
            omega
      | exception =>
          show Inv { st with tasks_map := mapErase id st.tasks_map,
                             on_going_tasks := st.on_going_tasks - 1 }
          refine ⟨?_, h2, ?_, ?_⟩
          · intro id' hid'
            have hid2 : id' ∈ st.task_queue := hid'
            have hne : id' ≠ id := fun he => hq (he ▸ hid2)
            show (mapFind id' (mapErase id st.tasks_map)).isSome = true
            rw [mapFind_mapErase_ne _ _ _ hne]
            exact h1 id' hid2
          · show (0 : Int) ≤ st.on_going_tasks - 1
            omega
          · show st.on_going_tasks - 1 ≤ st.max_running_tasks
            omega

theorem Inv_run_tasks (st : BackgroundTasks) (hInv : Inv st) :
    Inv (st.run_tasks).1
      ∧ ∀ id ∈ (st.run_tasks).2, id ∉ (st.run_tasks).1.task_queue := by
  obtain ⟨h1, h2, h3, h4⟩ := hInv
  have hlen := batch_length_le st
  constructor
  · refine ⟨?_, ?_, ?_, ?_⟩
    · intro id hid
      exact h1 id (List.drop_subset _ _ hid)
    · exact h2.sublist (List.drop_sublist _ _)
    · dsimp only [BackgroundTasks.run_tasks]
      omega
    · dsimp only [BackgroundTasks.run_tasks]
      omega
  · intro id hid
    have hid2 : id ∈ st.get_tasks_to_process := hid
    show id ∉ st.task_queue.drop ((st.get_tasks_to_process).length)
    have hbatch : st.get_tasks_to_process = [] ∨
        st.get_tasks_to_process =
          st.task_queue.take
            ((st.max_running_tasks - st.on_going_tasks).toNat) := by
      unfold BackgroundTasks.get_tasks_to_process
      split
      · exact Or.inl rfl
      · exact Or.inr rfl
    rcases hbatch with hb | hb
    · rw [hb] at hid2
      simp at hid2
    · rw [hb] at hid2 ⊢
      exact mem_take_not_mem_drop h2 _ id hid2

theorem Inv_add_tasks (ts : List Task) : ∀ st : BackgroundTasks, Inv st →
    (∀ t ∈ ts, mapFind t.id st.tasks_map = none) →
    (ts.map Task.id).Nodup → Inv (st.add_tasks ts) := by
  induction ts with
  | nil => intro st h _ _; exact h
  | cons t ts ih =>
      intro st hInv hf hn
      rw [List.map_cons, List.nodup_cons] at hn
      obtain ⟨h1, h2, h3, h4⟩ := hInv
      by_cases hs : st.is_server_shutting_down = true
      · have h0 : st.add_one t = st := by simp [BackgroundTasks.add_one, hs]
        show Inv (BackgroundTasks.add_tasks (st.add_one t) ts)
        rw [h0]
        exact ih st ⟨h1, h2, h3, h4⟩
          (fun t2 ht2 => hf t2 (List.mem_cons_of_mem t ht2)) hn.2
      · have hs' : st.is_server_shutting_down = false := by
          simpa using hs
        have hft : mapFind t.id st.tasks_map = none := hf t (by simp)
        have hqt : t.id ∉ st.task_queue := by
          intro hmem
          have hsome := h1 t.id hmem
          rw [hft] at hsome
          simp at hsome
        have hadd : st.add_one t =
            { st with tasks_map := mapSet t.id t st.tasks_map,
                      task_queue := st.task_queue ++ [t.id] } := by
          simp [BackgroundTasks.add_one, hs']
        show Inv (BackgroundTasks.add_tasks (st.add_one t) ts)
        refine ih (st.add_one t) ?_ ?_ hn.2
        · rw [hadd]
          refine ⟨?_, ?_, h3, h4⟩
          · intro id' hid'
            dsimp only at hid' ⊢
            rcases List.mem_append.mp hid' with hmem | hmem
            · by_cases he : id' = t.id
              · subst he; rw [mapFind_mapSet_self]; rfl
              · rw [mapFind_mapSet_ne _ _ _ _ he]; exact h1 id' hmem
            · have he : id' = t.id := by simpa using hmem
              subst he; rw [mapFind_mapSet_self]; rfl
          · dsimp only
            simp [List.nodup_append, h2, hqt]
        · intro t2 ht2
          rw [hadd]
          dsimp only
          have hne : t2.id ≠ t.id := fun he =>
            hn.1 (he ▸ List.mem_map_of_mem Task.id ht2)
          rw [mapFind_mapSet_ne _ _ _ _ hne]
          exact hf t2 (List.mem_cons_of_mem t ht2)

theorem put_back_attempts_le (st : BackgroundTasks) (id : String)
    (hb : (st.put_back_to_queue_if_allowed id).2 = true) :
    ∀ t', mapFind id (st.put_back_to_queue_if_allowed id).1.tasks_map
        = some t' → t'.attempts ≤ t'.max_retries := by
  cases hf : mapFind id st.tasks_map with
  | none =>
      rw [put_back_eq_of_none st id hf] at hb
      simp at hb
  | some t =>
      by_cases hs : st.is_server_shutting_down = true
      · rw [put_back_eq_of_shutting st id t hf hs] at hb
        simp at hb
      · have hs' : st.is_server_shutting_down = false := by simpa using hs
        by_cases hr : t.max_retries ≤ t.attempts
        · rw [put_back_eq_of_exhausted st id t hf hs' hr] at hb
          simp at hb
        · have hr' : t.attempts < t.max_retries := Nat.not_le.mp hr
          rw [put_back_eq_of_retry st id t hf hs' hr']
          intro t' ht'
          have ht2 : mapFind id
              (mapSet id { t with attempts := t.attempts + 1 } st.tasks_map)
              = some t' := ht'
          rw [mapFind_mapSet_self] at ht2
          cases ht2
          show t.attempts + 1 ≤ t.max_retries
          omega

/-- C4: every engine operation preserves the state invariant — queued ids
are registry keys, the queue is duplicate-free, and
`0 ≤ on_going_tasks ≤ max_running_tasks`. The operations take the
hypotheses the engine's own call discipline guarantees: submitted ids are
fresh and pairwise distinct (the id factory), and a settled/retried id is a
dispatched one (counted in `on_going_tasks`, not queued) — which is also
the "never simultaneously counted in onGoing and present in queue"
invariant, stated for `run_tasks` as the launched batch being absent from
the remaining queue. The retry gate enforces `attempts ≤ maxRetries`
before any increment: a task it re-enqueues satisfies it. -/
theorem C4_invariant_preservation (st : BackgroundTasks) (hInv : Inv st) :
    (∀ ts : List Task, (∀ t ∈ ts, mapFind t.id st.tasks_map = none) →
      (ts.map Task.id).Nodup → Inv (st.add_tasks ts))
    ∧ (Inv (st.run_tasks).1
        ∧ ∀ id ∈ (st.run_tasks).2, id ∉ (st.run_tasks).1.task_queue)
    ∧ (∀ (id : String) (outcome : BackgroundTasks.RunOutcome),
        id ∉ st.task_queue → 1 ≤ st.on_going_tasks →
        Inv (st.run_task id outcome))
    ∧ (∀ id : String, id ∉ st.task_queue →
        Inv (st.put_back_to_queue_if_allowed id).1)
    ∧ (∀ id : String, (st.put_back_to_queue_if_allowed id).2 = true →
        ∀ t', mapFind id (st.put_back_to_queue_if_allowed id).1.tasks_map
            = some t' → t'.attempts ≤ t'.max_retries)
    ∧ Inv st.clean_queue
    ∧ Inv st.shutdown_state := by
  obtain ⟨h1, h2, h3, h4⟩ := hInv
  refine ⟨fun ts hf hn => Inv_add_tasks ts st ⟨h1, h2, h3, h4⟩ hf hn,
    Inv_run_tasks st ⟨h1, h2, h3, h4⟩,
    fun id outcome hq hg => Inv_run_task st id outcome ⟨h1, h2, h3, h4⟩ hq hg,
    fun id hq => Inv_put_back st id ⟨h1, h2, h3, h4⟩ hq,
    fun id hb => put_back_attempts_le st id hb,
    ⟨by simp [BackgroundTasks.clean_queue], by simp [BackgroundTasks.clean_queue],
      h3, h4⟩,
    ⟨by simp [BackgroundTasks.shutdown_state, BackgroundTasks.clean_queue],
      by simp [BackgroundTasks.shutdown_state, BackgroundTasks.clean_queue],
      h3, h4⟩⟩

/-- Witness for C4 at a concrete invariant-satisfying state: one task
dispatched (counted in `on_going_tasks`, absent from the queue) settles by
success with the invariant intact, and a fresh admission keeps it too. -/
theorem C4_invariant_preservation_witness :
    Inv (BackgroundTasks.run_task
      ⟨[("a", create_task "a" 0 ⟨"x"⟩ 3 none)], [], 1, false, 2⟩ "a"
      .success)
    ∧ Inv (BackgroundTasks.add_tasks
      ⟨[("a", create_task "a" 0 ⟨"x"⟩ 3 none)], ["a"], 0, false, 2⟩
      [create_task "b_1_0" 1 ⟨"y"⟩ 3 none]) :=
  ⟨(C4_invariant_preservation
      ⟨[("a", create_task "a" 0 ⟨"x"⟩ 3 none)], [], 1, false, 2⟩
      (by decide)).2.2.1 "a" .success (by decide) (by decide),
   (C4_invariant_preservation
      ⟨[("a", create_task "a" 0 ⟨"x"⟩ 3 none)], ["a"], 0, false, 2⟩
      (by decide)).1 [create_task "b_1_0" 1 ⟨"y"⟩ 3 none] (by decide)
      (by decide)⟩

end Asgi
